import Mathlib

/-!
# Verification of the fnwispr hotkey capture-and-transcription client

Shallow embedding of `src/client/main.py` (class `FnwisprClient`):
key normalization, hotkey parsing, the press/release state machine,
audio normalization, the transcription pipeline, and the runtime
configuration controller.  Each definition is translated directly
from the corresponding Python function; machine-level effects
(audio stream open/close, alert pop-ups, file writes, model loads)
are modelled as explicit output events and success oracles.
-/

set_option maxRecDepth 10000

namespace Fnwispr

/-- Keys as delivered by the `pynput` keyboard listener: side-agnostic
modifiers, their side-specific variants, the command (win) key and its
variants, escape, printable characters (`keyboard.KeyCode`), and a
catch-all for other named special keys. -/
inductive Key where
  | ctrl | ctrl_l | ctrl_r
  | alt | alt_l | alt_r
  | shift | shift_l | shift_r
  | cmd | cmd_l | cmd_r
  | esc
  | char (c : Char)
  | other (name : String)
deriving DecidableEq, Repr

/-- `FnwisprClient.normalize_key` (main.py lines 257-281): maps a
left/right modifier variant to its side-agnostic form, but only when the
side-agnostic form is a member of the active hotkey combo; every other
key (including the cmd/win variants, which the chain does not mention)
is returned unchanged. -/
def normalize_key (hotkey_combo : Finset Key) (key : Key) : Key :=
  if (key = Key.ctrl_l ∨ key = Key.ctrl_r) ∧ Key.ctrl ∈ hotkey_combo then
    Key.ctrl
  else if (key = Key.alt_l ∨ key = Key.alt_r) ∧ Key.alt ∈ hotkey_combo then
    Key.alt
  else if (key = Key.shift_l ∨ key = Key.shift_r) ∧ Key.shift ∈ hotkey_combo then
    Key.shift
  else
    key

/-- The `key_mapping` dictionary inside `FnwisprClient.parse_hotkey`
(main.py lines 293-305). -/
def key_mapping (p : String) : Option Key :=
  if p = "ctrl" then some Key.ctrl
  else if p = "ctrl_l" then some Key.ctrl_l
  else if p = "ctrl_r" then some Key.ctrl_r
  else if p = "alt" then some Key.alt
  else if p = "alt_l" then some Key.alt_l
  else if p = "alt_r" then some Key.alt_r
  else if p = "shift" then some Key.shift
  else if p = "shift_l" then some Key.shift_l
  else if p = "shift_r" then some Key.shift_r
  else if p = "cmd" then some Key.cmd
  else if p = "win" then some Key.cmd
  else none

/-- Python `str.split(sep)` for a one-character separator, at the
character-list level (structural recursion so the kernel can evaluate
it; `"".split(sep)` gives `[""]`, matching Python). -/
def splitOnChar (sep : Char) : List Char → List (List Char)
  | [] => [[]]
  | c :: rest =>
    match splitOnChar sep rest with
    | [] => [[c]]
    | g :: gs => if c = sep then [] :: g :: gs else (c :: g) :: gs

/-- ASCII whitespace test used by `str.strip()`. -/
def isSpaceChar (c : Char) : Bool := c = ' ' ∨ c = '\t' ∨ c = '\n' ∨ c = '\r'

/-- Python `str.strip()` at the character-list level. -/
def trimChars (cs : List Char) : List Char :=
  ((cs.dropWhile isSpaceChar).reverse.dropWhile isSpaceChar).reverse

/-- The part list built by `FnwisprClient.parse_hotkey` (main.py line
308): lower-case the whole string, split on `+`, strip each part. -/
def hotkey_parts (hotkey_string : String) : List (List Char) :=
  (splitOnChar '+' (hotkey_string.toList.map Char.toLower)).map trimChars

/-- The loop body of `FnwisprClient.parse_hotkey` (main.py lines
307-317): each part is looked up in `key_mapping`; otherwise a
single-character part becomes a `KeyCode`; otherwise the part is
dropped with a warning. -/
def parse_parts : List (List Char) → Finset Key
  | [] => ∅
  | part :: rest =>
    match key_mapping (String.mk part) with
    | some k => insert k (parse_parts rest)
    | none =>
      match part with
      | [c] => insert (Key.char c) (parse_parts rest)
      | _ => parse_parts rest

/-- `FnwisprClient.parse_hotkey` (main.py lines 283-317). -/
def parse_hotkey (hotkey_string : String) : Finset Key :=
  parse_parts (hotkey_parts hotkey_string)

/-- A hotkey part that `parse_hotkey` recognises: either a name in
`key_mapping` or a single character. -/
def recognized_part (p : List Char) : Bool :=
  (key_mapping (String.mk p)).isSome || p.length = 1

/-! ## Configuration -/

/-- The configuration dictionary (`config.json` fields, main.py lines
202-210). -/
structure Config where
  hotkey : String
  model : String
  sample_rate : Int
  microphone_device : Option Int
  language : Option String
  auto_start : Bool
  close_behavior : String
deriving DecidableEq, Repr

/-- The default configuration built by
`FnwisprClient.create_default_config` (main.py lines 202-210). -/
def default_config : Config :=
  { hotkey := "ctrl+win"
    model := "base"
    sample_rate := 16000
    microphone_device := none
    language := none
    auto_start := false
    close_behavior := "ask" }

/-- State of the configuration file at the resolved path, as seen by
`FnwisprClient.load_config`. -/
inductive ConfigFile where
  | absent
  | malformed
  | valid (c : Config)

/-- Outcome of `FnwisprClient.load_config`: whether the process exits
(`sys.exit(1)` on JSON decode error), the configuration returned, and
the configuration written back to the path (if any write succeeded). -/
structure LoadOutcome where
  fatal : Bool
  config : Option Config
  written : Option Config
deriving DecidableEq, Repr

/-- `FnwisprClient.create_default_config` (main.py lines 192-220): the
default dictionary is written to the path (a write failure is caught and
logged) and returned in either case.  `writeOk` is the oracle for the
file-system write. -/
def create_default_config (writeOk : Bool) : Config × Option Config :=
  (default_config, if writeOk then some default_config else none)

/-- `FnwisprClient.load_config` (main.py lines 168-190): a readable file
is parsed and returned; a missing file falls back to
`create_default_config`; a present-but-malformed file calls
`sys.exit(1)`. -/
def load_config (writeOk : Bool) : ConfigFile → LoadOutcome
  | ConfigFile.valid c => { fatal := false, config := some c, written := none }
  | ConfigFile.absent =>
    let r := create_default_config writeOk
    { fatal := false, config := some r.1, written := r.2 }
  | ConfigFile.malformed => { fatal := true, config := none, written := none }

/-! ## Client state -/

/-- One block of mono samples delivered by the audio callback. -/
abbrev AudioChunk := List ℚ

/-- The mutable attributes of `FnwisprClient` (main.py lines 58-81)
that the verified operations read and write. -/
structure ClientState where
  config : Config
  hotkey_combo : Finset Key
  whisper_model : Option String
  previous_device : Option Int
  recording : Bool
  current_keys : Finset Key
  is_running : Bool
  audio_data : List AudioChunk
  stream_open : Bool

/-- Observable effects of the listener-side operations. -/
inductive Output where
  | startCapture
  | micOpenFail
  | stopCapture
  | dispatchAudio
  | shutdown
deriving DecidableEq, Repr

/-- `FnwisprClient.start_recording` (main.py lines 335-355): a no-op if
already recording; otherwise enters the capturing state, resets the
buffer and opens the input stream (`micOk` is the oracle for
`sd.InputStream`; on failure the exception is caught and the recording
flag is reset). -/
def start_recording (micOk : Bool) (s : ClientState) : ClientState × List Output :=
  if ¬ s.recording then
    let s1 := { s with recording := true, audio_data := [] }
    if micOk then
      ({ s1 with stream_open := true }, [Output.startCapture])
    else
      ({ s1 with recording := false }, [Output.startCapture, Output.micOpenFail])
  else
    (s, [])

/-- `FnwisprClient.stop_recording` (main.py lines 357-370): if
recording, clears the flag, releases the stream (errors there are
caught and logged) and dispatches the buffered audio to the worker
thread. -/
def stop_recording (s : ClientState) : ClientState × List Output :=
  if s.recording then
    ({ s with recording := false, stream_open := false },
      [Output.stopCapture, Output.dispatchAudio])
  else
    (s, [])

/-- `FnwisprClient.on_press` (main.py lines 503-517): normalize the
key, add it to the held set, and start recording when the combo is a
subset of the held set. -/
def on_press (micOk : Bool) (key : Key) (s : ClientState) : ClientState × List Output :=
  let normalized_key := normalize_key s.hotkey_combo key
  let s1 := { s with current_keys := insert normalized_key s.current_keys }
  if s1.hotkey_combo ⊆ s1.current_keys then
    start_recording micOk s1
  else
    (s1, [])

/-- `FnwisprClient.on_release` (main.py lines 519-538): normalize the
key, remove it from the held set, stop recording when the normalized
key is a combo member and the machine is recording, and shut the
listener down when the raw key is escape. -/
def on_release (key : Key) (s : ClientState) : ClientState × List Output :=
  let normalized_key := normalize_key s.hotkey_combo key
  let s1 := { s with current_keys := s.current_keys.erase normalized_key }
  let (s2, out) :=
    if normalized_key ∈ s1.hotkey_combo ∧ s1.recording then
      stop_recording s1
    else
      (s1, [])
  if key = Key.esc then
    ({ s2 with is_running := false }, out ++ [Output.shutdown])
  else
    (s2, out)

/-- A key event delivered to the listener.  A press carries the oracle
for the stream open that `start_recording` would perform. -/
inductive KEvent where
  | press (key : Key) (micOk : Bool)
  | release (key : Key)
deriving DecidableEq, Repr

/-- Dispatch of one event to `on_press` / `on_release`. -/
def step (e : KEvent) (s : ClientState) : ClientState × List Output :=
  match e with
  | KEvent.press k micOk => on_press micOk k s
  | KEvent.release k => on_release k s

/-- The listener loop: events are delivered while `is_running` holds
(returning `False` from `on_release` stops the `pynput` listener). -/
def run (s : ClientState) : List KEvent → ClientState × List Output
  | [] => (s, [])
  | e :: rest =>
    if s.is_running then
      let r1 := step e s
      let r2 := run r1.1 rest
      (r2.1, r1.2 ++ r2.2)
    else
      (s, [])

/-- The listener-session state at startup (`__init__`, main.py lines
58-77): not recording, no held keys, running, with the parsed combo. -/
def session_start (combo : Finset Key) : ClientState :=
  { config := default_config
    hotkey_combo := combo
    whisper_model := none
    previous_device := none
    recording := false
    current_keys := ∅
    is_running := true
    audio_data := []
    stream_open := false }

/-- Every press event in the trace opens its stream successfully. -/
def pressesOk : List KEvent → Bool
  | [] => true
  | KEvent.press _ micOk :: rest => micOk && pressesOk rest
  | KEvent.release _ :: rest => pressesOk rest

/-- Capture-session boundary events. -/
def isCapEvent : Output → Bool
  | Output.startCapture => true
  | Output.stopCapture => true
  | _ => false

/-- The stream-open oracle carried by an event (`true` for releases). -/
def eventOk : KEvent → Bool
  | KEvent.press _ micOk => micOk
  | KEvent.release _ => true

/-- Scans an output trace with a flag recording whether a capture
session is open: a `startCapture` is legal only while no session is
open.  `startsAlternate false outs = true` says the start/stop events
in `outs` alternate starting from the idle state. -/
def startsAlternate : Bool → List Output → Bool
  | _, [] => true
  | b, Output.startCapture :: rest => !b && startsAlternate true rest
  | _, Output.stopCapture :: rest => startsAlternate false rest
  | b, _ :: rest => startsAlternate b rest

/-- A concrete idle client state (combo ctrl+win, model "base" loaded)
used to instantiate theorems at explicit inputs. -/
def sample_state : ClientState :=
  { config := default_config
    hotkey_combo := {Key.ctrl, Key.cmd}
    whisper_model := some "base"
    previous_device := none
    recording := false
    current_keys := ∅
    is_running := true
    audio_data := []
    stream_open := false }

/-- A concrete client state in the middle of a recording (both combo
keys held). -/
def recording_state : ClientState :=
  { sample_state with
    recording := true
    current_keys := {Key.ctrl, Key.cmd}
    stream_open := true }

/-! ## Audio normalization and the transcription pipeline -/

/-- Sample encodings distinguished by `transcribe_audio` (main.py lines
450-461). -/
inductive Dtype where
  | int16 | int32 | uint8 | float32
deriving DecidableEq, Repr

/-- The array returned by `wavfile.read`: one-dimensional (mono file)
or two-dimensional (frames × channels), with its dtype; sample values
are modelled as rationals. -/
inductive WavArray where
  | one (dtype : Dtype) (samples : List ℚ)
  | two (dtype : Dtype) (rows : List (List ℚ))
deriving DecidableEq, Repr

/-- The per-sample effect of the dtype dispatch in `transcribe_audio`
(main.py lines 450-461): int16 divides by 32768, int32 by 2147483648,
uint8 subtracts 128 then divides by 128, float32 passes through. -/
def normalize_sample (d : Dtype) (x : ℚ) : ℚ :=
  match d with
  | Dtype.int16 => x / 32768
  | Dtype.int32 => x / 2147483648
  | Dtype.uint8 => (x - 128) / 128
  | Dtype.float32 => x

/-- The array-level normalization of `transcribe_audio` (main.py lines
449-465): elementwise dtype normalization, then, for a two-dimensional
array, keep only the first channel (`audio_float[:, 0]`). -/
def prepare_audio : WavArray → List ℚ
  | WavArray.one d xs => xs.map (normalize_sample d)
  | WavArray.two d rows =>
    (rows.map (List.map (normalize_sample d))).map (fun r => r.headD 0)

/-- The inference oracle: `whisper_model.transcribe` either returns a
result dict `{text, language}` or raises. -/
abbrev InferFn := List ℚ → Option String → Except String (String × Option String)

/-- Python `str.strip()` on the returned text. -/
def strip_text (t : String) : String := String.mk (trimChars t.toList)

/-- `FnwisprClient.transcribe_audio` (main.py lines 428-483): read the
WAV file, normalize to float, call the model, and return the stripped
text; any exception is caught, logged with the full traceback, and
yields `none`. -/
def transcribe_audio (infer : InferFn) (language : Option String) (w : WavArray) :
    Option String :=
  let audio_float := prepare_audio w
  match infer audio_float language with
  | Except.ok r => some (strip_text r.1)
  | Except.error _ => none

/-- Observable effects of `process_audio`. -/
inductive Action where
  | warnNoAudio
  | wavWrite
  | insertText (t : String)
  | cleanupTemp
deriving DecidableEq, Repr

/-- The texts passed to `insert_text` in an action trace. -/
def inserted_texts (acts : List Action) : List String :=
  acts.filterMap (fun a =>
    match a with
    | Action.insertText t => some t
    | _ => none)

/-- `FnwisprClient.process_audio` (main.py lines 372-426): with no
buffered audio, warn and return; otherwise concatenate the chunks,
write them to a temporary WAV file, transcribe it, and insert the text
only when the transcription produced a non-empty string; the temporary
file is removed on every exit path. -/
def process_audio (infer : InferFn) (language : Option String)
    (audio_data : List AudioChunk) : List Action :=
  if audio_data = [] then
    [Action.warnNoAudio]
  else
    let audio := audio_data.flatten
    let transcribed_text := transcribe_audio infer language (WavArray.one Dtype.float32 audio)
    let insertActs :=
      match transcribed_text with
      | some t => if t ≠ "" then [Action.insertText t] else []
      | none => []
    [Action.wavWrite] ++ insertActs ++ [Action.cleanupTemp]

/-! ## Model hot-swap and the configuration controller -/

/-- The model-load oracle: `whisper.load_model(name)` either returns a
model handle or raises. -/
abbrev LoadFn := String → Except String String

/-- `FnwisprClient._load_whisper_model` (main.py lines 122-131): loads
the model named by the current config; on success stores it in
`whisper_model`; on failure logs and re-raises. -/
def load_whisper_model (load : LoadFn) (s : ClientState) : Except String ClientState :=
  match load s.config.model with
  | Except.ok m => Except.ok { s with whisper_model := some m }
  | Except.error e => Except.error e

/-- Outcome of `_on_model_change`: the client state afterwards, the
exception that escaped the handler (if any), and whether
`save_config` ran. -/
structure ModelChangeResult where
  state : ClientState
  raised : Option String
  saved : Bool

/-- `FnwisprClient._on_model_change` (main.py lines 632-638): if the
name differs from the configured one, the config is updated, the model
is reloaded, and the config is saved.  The reload is not guarded, so a
load failure escapes the handler after the config dictionary was
already mutated, and before `save_config`. -/
def on_model_change (load : LoadFn) (model : String) (s : ClientState) :
    ModelChangeResult :=
  if s.config.model ≠ model then
    let s1 := { s with config := { s.config with model := model } }
    match load_whisper_model load s1 with
    | Except.ok s2 => { state := s2, raised := none, saved := true }
    | Except.error e => { state := s1, raised := some e, saved := false }
  else
    { state := s, raised := none, saved := false }

/-- Observable effects of `_on_config_change`. -/
inductive CAction where
  | initMic
  | micAlert
  | showInfoMicChanged (name : String)
  | loadModel (m : String)
  | reparseHotkey (h : String)
  | setStartup (b : Bool)
  | saveConfig
deriving DecidableEq, Repr

/-- Outcome of `_on_config_change`. -/
structure ConfigChangeResult where
  state : ClientState
  actions : List CAction
  raised : Option String

/-- `FnwisprClient._get_device_name` (main.py lines 156-166). -/
def get_device_name (devices : List String) (device_idx : Option Int) : String :=
  match device_idx with
  | none => "Default"
  | some idx =>
    if 0 ≤ idx ∧ idx < devices.length then devices.getD idx.toNat ""
    else "Device " ++ toString idx

/-- `FnwisprClient._init_microphone` (main.py lines 133-154): opens and
closes a test stream; a failure is caught and surfaced as a microphone
alert, never raised. -/
def init_microphone_actions (micOk : Bool) : List CAction :=
  if micOk then [CAction.initMic] else [CAction.initMic, CAction.micAlert]

/-- The tail of `_on_config_change` (main.py lines 617-630): hotkey
re-parse check, auto-start check, final config assignment and
`save_config`.  Both checks compare `self.config` — which already holds
`new_config` — against `new_config`, so they never fire. -/
def config_change_tail (s2 : ClientState) (acts : List CAction) (new_config : Config) :
    ConfigChangeResult :=
  let r3 :=
    if s2.config.hotkey ≠ new_config.hotkey then
      ({ s2 with hotkey_combo := parse_hotkey new_config.hotkey },
        [CAction.reparseHotkey new_config.hotkey])
    else
      (s2, ([] : List CAction))
  let acts4 :=
    if r3.1.config.auto_start ≠ new_config.auto_start then
      [CAction.setStartup new_config.auto_start]
    else
      ([] : List CAction)
  { state := { r3.1 with config := new_config }
    actions := acts ++ r3.2 ++ acts4 ++ [CAction.saveConfig]
    raised := none }

/-- `FnwisprClient._on_config_change` (main.py lines 592-630): the
device branch replaces `self.config` with `new_config` (in both arms)
before the model/hotkey/auto-start comparisons run, so those compare
`new_config` to itself; at the end the config is assigned once more and
saved.  A model reload failure would re-raise out of the handler before
`save_config`, but the reload branch is unreachable. -/
def on_config_change (devices : List String) (micOk : Bool) (load : LoadFn)
    (s : ClientState) (new_config : Config) : ConfigChangeResult :=
  let old_device := s.config.microphone_device
  let new_device := new_config.microphone_device
  let r1 :=
    if old_device ≠ new_device then
      let sA : ClientState := { s with previous_device := old_device, config := new_config }
      let micActs := init_microphone_actions micOk
      let infoActs :=
        if get_device_name devices new_device ≠ get_device_name devices old_device then
          [CAction.showInfoMicChanged (get_device_name devices new_device)]
        else
          ([] : List CAction)
      (sA, micActs ++ infoActs)
    else
      ({ s with config := new_config }, ([] : List CAction))
  if r1.1.config.model ≠ new_config.model then
    match load r1.1.config.model with
    | Except.error e =>
      { state := r1.1, actions := r1.2 ++ [CAction.loadModel r1.1.config.model],
        raised := some e }
    | Except.ok m =>
      config_change_tail { r1.1 with whisper_model := some m }
        (r1.2 ++ [CAction.loadModel r1.1.config.model]) new_config
  else
    config_change_tail r1.1 r1.2 new_config

/-! ## Theorems

Helper lemmas come first; the claim theorems follow, one per claim.
-/

/-- `parse_parts` yields a non-empty set exactly when some part is
recognised (a `key_mapping` name or a single character). -/
lemma parse_parts_nonempty_iff (L : List (List Char)) :
    (parse_parts L).Nonempty ↔ ∃ p ∈ L, recognized_part p = true := by
  induction L with
  | nil => simp [parse_parts]
  | cons part rest ih =>
    simp only [parse_parts]
    cases hm : key_mapping (String.mk part) with
    | some k =>
      simp [Finset.insert_nonempty, recognized_part, hm]
    | none =>
      match part with
      | [] => simp [recognized_part, hm, ih]
      | [c] => simp [Finset.insert_nonempty, recognized_part, hm]
      | c1 :: c2 :: cs => simp [recognized_part, hm, ih]

/-- C9 (counterexample): the configuration string "fn" contains no
recognised part, so `parse_hotkey` returns the empty combo — the
non-emptiness invariant does not hold for every configuration
string. -/
theorem parse_hotkey_fn_empty : ¬ (parse_hotkey "fn").Nonempty := by
  have h : parse_hotkey "fn" = ∅ := Finset.card_eq_zero.mp (by decide)
  rw [h]
  exact Finset.not_nonempty_empty

/-- C9 (amended): the parsed combo is non-empty iff at least one
`+`-separated part of the lower-cased, stripped configuration string is
recognised — a `key_mapping` modifier name or a single character;
strings whose parts are all unrecognised (e.g. "fn") parse to the
empty combo. -/
theorem parse_hotkey_nonempty_iff (s : String) :
    (parse_hotkey s).Nonempty ↔ ∃ p ∈ hotkey_parts s, recognized_part p = true :=
  parse_parts_nonempty_iff (hotkey_parts s)

/-- C4 (counterexample): with a combo containing the side-agnostic
command (win) key, the left command variant is NOT mapped to it —
`normalize_key` has no case for the cmd/super variants, contradicting
the claim for the super modifier. -/
theorem normalize_key_cmd_l_unchanged :
    normalize_key {Key.cmd} Key.cmd_l = Key.cmd_l ∧ Key.cmd_l ≠ Key.cmd := by
  constructor
  · rfl
  · decide

/-- C4 (amended): for ctrl, alt and shift, a side-specific variant maps
to the side-agnostic key exactly when that side-agnostic key is in the
combo, and passes through unchanged otherwise; the cmd (super) variants
and every non-modifier key always pass through unchanged. -/
theorem normalize_key_spec (C : Finset Key) :
    normalize_key C Key.ctrl_l = (if Key.ctrl ∈ C then Key.ctrl else Key.ctrl_l) ∧
    normalize_key C Key.ctrl_r = (if Key.ctrl ∈ C then Key.ctrl else Key.ctrl_r) ∧
    normalize_key C Key.alt_l = (if Key.alt ∈ C then Key.alt else Key.alt_l) ∧
    normalize_key C Key.alt_r = (if Key.alt ∈ C then Key.alt else Key.alt_r) ∧
    normalize_key C Key.shift_l = (if Key.shift ∈ C then Key.shift else Key.shift_l) ∧
    normalize_key C Key.shift_r = (if Key.shift ∈ C then Key.shift else Key.shift_r) ∧
    normalize_key C Key.cmd_l = Key.cmd_l ∧
    normalize_key C Key.cmd_r = Key.cmd_r ∧
    normalize_key C Key.esc = Key.esc ∧
    (∀ c : Char, normalize_key C (Key.char c) = Key.char c) ∧
    (∀ n : String, normalize_key C (Key.other n) = Key.other n) := by
  refine ⟨?_, ?_, ?_, ?_, ?_, ?_, ?_, ?_, ?_, fun c => ?_, fun n => ?_⟩ <;>
    simp [normalize_key]

/-- C5: sample normalization — int16 divides by 32768, int32 by
2147483648, uint8 subtracts 128 then divides by 128, float32 passes
through; a two-dimensional (multi-channel) array keeps only the first
channel; uint8 sample 128 maps to 0. -/
theorem prepare_audio_spec :
    (∀ xs : List ℚ,
      prepare_audio (WavArray.one Dtype.int16 xs) = xs.map (fun x => x / 32768)) ∧
    (∀ xs : List ℚ,
      prepare_audio (WavArray.one Dtype.int32 xs) = xs.map (fun x => x / 2147483648)) ∧
    (∀ xs : List ℚ,
      prepare_audio (WavArray.one Dtype.uint8 xs) = xs.map (fun x => (x - 128) / 128)) ∧
    (∀ xs : List ℚ,
      prepare_audio (WavArray.one Dtype.float32 xs) = xs) ∧
    (∀ (d : Dtype) (rows : List (List ℚ)), (∀ r ∈ rows, r ≠ []) →
      prepare_audio (WavArray.two d rows) =
        (rows.map (fun r => r.headD 0)).map (normalize_sample d)) ∧
    normalize_sample Dtype.uint8 128 = 0 := by
  refine ⟨fun xs => rfl, fun xs => rfl, fun xs => rfl, fun xs => List.map_id xs,
    fun d rows hrows => ?_, by norm_num [normalize_sample]⟩
  simp only [prepare_audio, List.map_map]
  apply List.map_congr_left
  intro r hr
  match r, hrows r hr with
  | c :: cs, _ => simp

/-- Witness for C5 at explicit inputs; the multi-channel hypothesis is
discharged at the two-row array `[[3, 4], [5, 6]]`. -/
theorem prepare_audio_spec_witness :
    (∀ r ∈ [[(3 : ℚ), 4], [5, 6]], r ≠ []) ∧
    prepare_audio (WavArray.two Dtype.int16 [[(3 : ℚ), 4], [5, 6]]) =
      ([[(3 : ℚ), 4], [5, 6]].map (fun r => r.headD 0)).map (normalize_sample Dtype.int16) :=
  ⟨by decide,
    prepare_audio_spec.2.2.2.2.1 Dtype.int16 [[(3 : ℚ), 4], [5, 6]] (by decide)⟩

/-- C10: when the configuration file is absent, startup does not fail —
the default configuration {hotkey ctrl+win, model base, sample_rate
16000, no device, no language, auto_start false, close_behavior ask} is
returned and written to the path; only a present-but-malformed file is
fatal; a valid file is returned as parsed. -/
theorem load_config_spec : ∀ writeOk : Bool,
    load_config writeOk ConfigFile.absent =
      { fatal := false, config := some default_config,
        written := if writeOk then some default_config else none } ∧
    default_config =
      { hotkey := "ctrl+win", model := "base", sample_rate := 16000,
        microphone_device := none, language := none, auto_start := false,
        close_behavior := "ask" } ∧
    load_config writeOk ConfigFile.malformed =
      { fatal := true, config := none, written := none } ∧
    (∀ c : Config, load_config writeOk (ConfigFile.valid c) =
      { fatal := false, config := some c, written := none }) := by
  intro writeOk
  refine ⟨?_, rfl, rfl, fun c => rfl⟩
  cases writeOk <;> rfl

/-- C6: when the inference call raises, the exception is caught inside
the worker — the transcription outcome is `none` and `insert_text` is
never invoked for that utterance, whatever the recorded buffer. -/
theorem inference_error_no_injection :
    ∀ (e : String) (language : Option String) (w : WavArray)
      (audio_data : List AudioChunk),
      transcribe_audio (fun _ _ => Except.error e) language w = none ∧
      inserted_texts (process_audio (fun _ _ => Except.error e) language audio_data) = [] := by
  intro e language w audio_data
  refine ⟨rfl, ?_⟩
  unfold process_audio
  split
  · rfl
  · simp [transcribe_audio, inserted_texts]

/-- C7 (counterexample): switching `sample_state` (model "base") to
"large" with a failing loader makes the exception escape
`_on_model_change` — the claim that no exception propagates out of the
switch handler is false. -/
theorem model_switch_failure_raises :
    (on_model_change (fun _ => Except.error "load failed") "large" sample_state).raised =
      some "load failed" := by
  rfl

/-- C7 (amended): on a runtime model switch whose load fails, the
previously loaded model object remains the active `whisper_model` (so
subsequent transcriptions still use it), but the error is only logged —
no alert is reported — and the exception re-raises out of
`_on_model_change` (into the tray callback thread), skipping
`save_config` while the in-memory config already names the new
model. -/
theorem model_switch_failure_keeps_previous (e model : String) (s : ClientState)
    (h : s.config.model ≠ model) :
    (on_model_change (fun _ => Except.error e) model s).state.whisper_model =
      s.whisper_model ∧
    (on_model_change (fun _ => Except.error e) model s).state.config.model = model ∧
    (on_model_change (fun _ => Except.error e) model s).raised = some e ∧
    (on_model_change (fun _ => Except.error e) model s).saved = false := by
  simp [on_model_change, load_whisper_model, h]

/-- Witness for C7 (amended) at `sample_state` and the model name
"large". -/
theorem model_switch_failure_keeps_previous_witness :
    sample_state.config.model ≠ "large" ∧
    ((on_model_change (fun _ => Except.error "boom") "large" sample_state).state.whisper_model =
        sample_state.whisper_model ∧
      (on_model_change (fun _ => Except.error "boom") "large" sample_state).state.config.model =
        "large" ∧
      (on_model_change (fun _ => Except.error "boom") "large" sample_state).raised =
        some "boom" ∧
      (on_model_change (fun _ => Except.error "boom") "large" sample_state).saved = false) :=
  ⟨by decide, model_switch_failure_keeps_previous "boom" "large" sample_state (by decide)⟩

/-- C8: `_on_config_change` always reaches `save_config` with the new
configuration, whatever the device swap, microphone outcome or model
loader do: because `self.config` is replaced before the per-field
comparisons, the model/hotkey/auto-start swaps compare the new config
to itself and can never raise, so persistence is unconditional. -/
theorem config_change_always_saves
    (devices : List String) (micOk : Bool) (load : LoadFn)
    (s : ClientState) (new_config : Config) :
    (on_config_change devices micOk load s new_config).raised = none ∧
    (on_config_change devices micOk load s new_config).actions.getLast? =
      some CAction.saveConfig ∧
    (on_config_change devices micOk load s new_config).state.config = new_config := by
  unfold on_config_change
  by_cases hd : s.config.microphone_device ≠ new_config.microphone_device <;>
    simp [hd, config_change_tail, List.getLast?_append]

/-- One listener step composed with any continuation of outputs: the
alternation flag after the step's outputs equals the recording flag of
the post-state, provided the step's stream open (if any) succeeds. -/
lemma step_alternate_append (e : KEvent) (s : ClientState) (l : List Output)
    (h : eventOk e = true) :
    startsAlternate s.recording ((step e s).2 ++ l) =
      startsAlternate (step e s).1.recording l := by
  cases e with
  | press k micOk =>
    replace h : micOk = true := h
    subst h
    show startsAlternate s.recording ((on_press true k s).2 ++ l) =
      startsAlternate (on_press true k s).1.recording l
    unfold on_press start_recording
    by_cases hsub : s.hotkey_combo ⊆ insert (normalize_key s.hotkey_combo k) s.current_keys
    · by_cases hrec : s.recording = true
      · simp [hsub, hrec, startsAlternate]
      · simp [hsub, hrec, startsAlternate]
    · simp [hsub, startsAlternate]
  | release k =>
    show startsAlternate s.recording ((on_release k s).2 ++ l) =
      startsAlternate (on_release k s).1.recording l
    unfold on_release stop_recording
    by_cases hesc : k = Key.esc
    · subst hesc
      by_cases hmem : normalize_key s.hotkey_combo Key.esc ∈ s.hotkey_combo
      · by_cases hrec : s.recording = true <;> simp [hmem, hrec, startsAlternate]
      · simp [hmem, startsAlternate]
    · by_cases hmem : normalize_key s.hotkey_combo k ∈ s.hotkey_combo
      · by_cases hrec : s.recording = true <;> simp [hmem, hrec, hesc, startsAlternate]
      · simp [hmem, hesc, startsAlternate]

/-- `pressesOk` unfolds through `eventOk`. -/
lemma pressesOk_cons (e : KEvent) (rest : List KEvent) :
    pressesOk (e :: rest) = (eventOk e && pressesOk rest) := by
  cases e <;> rfl

/-- Invariant of the listener loop: when every stream open succeeds,
the output trace alternates starting from the current recording
flag. -/
lemma run_startsAlternate (evs : List KEvent) :
    ∀ s : ClientState, pressesOk evs = true →
      startsAlternate s.recording (run s evs).2 = true := by
  induction evs with
  | nil => intro s _; rfl
  | cons e rest ih =>
    intro s hok
    rw [pressesOk_cons, Bool.and_eq_true] at hok
    show startsAlternate s.recording (run s (e :: rest)).2 = true
    unfold run
    by_cases hrun : s.is_running = true
    · simp only [hrun, if_true]
      rw [step_alternate_append e s _ hok.1]
      exact ih (step e s).1 hok.2
    · simp [hrun, startsAlternate]

/-- After a `startCapture` still pending (flag true), the next capture
boundary event cannot be another `startCapture`. -/
lemma filter_head_not_start (l : List Output) (h : startsAlternate true l = true) :
    ¬ (l.filter isCapEvent).head? = some Output.startCapture := by
  induction l with
  | nil => simp
  | cons o rest ih =>
    cases o with
    | startCapture => simp [startsAlternate] at h
    | stopCapture =>
      rw [List.filter_cons_of_pos (by decide)]
      simp
    | micOpenFail =>
      rw [List.filter_cons_of_neg (by decide)]
      exact ih h
    | dispatchAudio =>
      rw [List.filter_cons_of_neg (by decide)]
      exact ih h
    | shutdown =>
      rw [List.filter_cons_of_neg (by decide)]
      exact ih h

/-- An alternating output trace never has two `startCapture` boundary
events with no `stopCapture` between them: among the capture boundary
events, no two consecutive ones are both starts. -/
lemma startsAlternate_chain (l : List Output) :
    ∀ b : Bool, startsAlternate b l = true →
      List.Chain' (fun a c => ¬(a = Output.startCapture ∧ c = Output.startCapture))
        (l.filter isCapEvent) := by
  induction l with
  | nil => intro b _; simp
  | cons o rest ih =>
    intro b h
    cases o with
    | startCapture =>
      replace h : (!b && startsAlternate true rest) = true := h
      rw [Bool.and_eq_true] at h
      rw [List.filter_cons_of_pos (by rfl), List.chain'_cons']
      constructor
      · intro c hc hcon
        apply filter_head_not_start rest h.2
        rw [Option.mem_def] at hc
        rw [hc, hcon.2]
      · exact ih true h.2
    | stopCapture =>
      replace h : startsAlternate false rest = true := h
      rw [List.filter_cons_of_pos (by rfl), List.chain'_cons']
      refine ⟨fun c _ hcon => ?_, ih false h⟩
      exact absurd hcon.1 (by decide)
    | micOpenFail =>
      rw [List.filter_cons_of_neg (by decide)]
      exact ih b h
    | dispatchAudio =>
      rw [List.filter_cons_of_neg (by decide)]
      exact ih b h
    | shutdown =>
      rw [List.filter_cons_of_neg (by decide)]
      exact ih b h

/-- C1: `start_recording` enters the capturing state on a press exactly
when, after adding the normalized key to the held set, the combo is a
subset of that set and the machine is not already recording; over any
event trace from session start (with successful stream opens),
`startCapture` never fires twice without an intervening `stopCapture`;
and re-pressing an already-held key while recording is a no-op. -/
theorem hotkey_start_capture :
    (∀ (micOk : Bool) (k : Key) (s : ClientState),
      Output.startCapture ∈ (on_press micOk k s).2 ↔
        (s.hotkey_combo ⊆ insert (normalize_key s.hotkey_combo k) s.current_keys ∧
          s.recording = false)) ∧
    (∀ (combo : Finset Key) (evs : List KEvent), pressesOk evs = true →
      List.Chain' (fun a c => ¬(a = Output.startCapture ∧ c = Output.startCapture))
        (((run (session_start combo) evs).2).filter isCapEvent)) ∧
    (∀ (micOk : Bool) (k : Key) (s : ClientState),
      s.recording = true → normalize_key s.hotkey_combo k ∈ s.current_keys →
      on_press micOk k s = (s, [])) := by
  refine ⟨?_, ?_, ?_⟩
  · intro micOk k s
    unfold on_press start_recording
    by_cases hsub : s.hotkey_combo ⊆ insert (normalize_key s.hotkey_combo k) s.current_keys
    · by_cases hrec : s.recording = true
      · simp [hsub, hrec]
      · cases micOk <;> simp [hsub, hrec]
    · simp [hsub]
  · intro combo evs hok
    have h := run_startsAlternate evs (session_start combo) hok
    exact startsAlternate_chain _ false h
  · intro micOk k s hrec hmem
    obtain ⟨cfg, combo, wm, pd, rec, keys, ir, ad, so⟩ := s
    replace hrec : rec = true := hrec
    replace hmem : normalize_key combo k ∈ keys := hmem
    subst hrec
    have h1 : insert (normalize_key combo k) keys = keys := Finset.insert_eq_self.mpr hmem
    simp [on_press, start_recording, h1]

/-- Witness for C1: the firing condition at a concrete press completing
the ctrl+win combo; the alternation property on a concrete trace that
records twice; and the no-op at a concrete re-press while recording. -/
theorem hotkey_start_capture_witness :
    (Output.startCapture ∈
        (on_press true Key.cmd { sample_state with current_keys := {Key.ctrl} }).2 ↔
      (sample_state.hotkey_combo ⊆
          insert (normalize_key sample_state.hotkey_combo Key.cmd) {Key.ctrl} ∧
        sample_state.recording = false)) ∧
    (pressesOk [KEvent.press Key.ctrl true, KEvent.press Key.cmd true,
        KEvent.release Key.cmd, KEvent.press Key.cmd true] = true ∧
      List.Chain' (fun a c => ¬(a = Output.startCapture ∧ c = Output.startCapture))
        (((run (session_start {Key.ctrl, Key.cmd})
            [KEvent.press Key.ctrl true, KEvent.press Key.cmd true,
              KEvent.release Key.cmd, KEvent.press Key.cmd true]).2).filter isCapEvent)) ∧
    (recording_state.recording = true ∧
      normalize_key recording_state.hotkey_combo Key.ctrl ∈ recording_state.current_keys ∧
      on_press true Key.ctrl recording_state = (recording_state, [])) :=
  ⟨hotkey_start_capture.1 true Key.cmd { sample_state with current_keys := {Key.ctrl} },
    ⟨by decide,
      hotkey_start_capture.2.1 {Key.ctrl, Key.cmd}
        [KEvent.press Key.ctrl true, KEvent.press Key.cmd true,
          KEvent.release Key.cmd, KEvent.press Key.cmd true] (by decide)⟩,
    ⟨by decide, by decide,
      hotkey_start_capture.2.2 true Key.ctrl recording_state (by decide) (by decide)⟩⟩

/-- C2: releasing a key whose normalized form is a combo member while
recording fires exactly one `stopCapture` (recording stops, the stream
is released, the buffered audio is dispatched exactly once); releasing
a key not in the combo fires none. -/
theorem release_stop_capture (k : Key) (s : ClientState) :
    (normalize_key s.hotkey_combo k ∈ s.hotkey_combo → s.recording = true →
      ((on_release k s).2.count Output.stopCapture = 1 ∧
        (on_release k s).2.count Output.dispatchAudio = 1 ∧
        (on_release k s).1.recording = false ∧
        (on_release k s).1.stream_open = false)) ∧
    (normalize_key s.hotkey_combo k ∉ s.hotkey_combo →
      (on_release k s).2.count Output.stopCapture = 0) := by
  constructor
  · intro hmem hrec
    unfold on_release stop_recording
    by_cases hesc : k = Key.esc
    · subst hesc; simp [hmem, hrec, List.count_cons]
    · simp [hmem, hrec, hesc, List.count_cons]
  · intro hmem
    unfold on_release
    by_cases hesc : k = Key.esc
    · subst hesc; simp [hmem, List.count_cons]
    · simp [hmem, hesc, List.count_cons]

/-- Witness for C2: releasing ctrl during the concrete recording state
stops exactly once; releasing the unrelated character x stops
nothing. -/
theorem release_stop_capture_witness :
    (normalize_key recording_state.hotkey_combo Key.ctrl ∈ recording_state.hotkey_combo ∧
      recording_state.recording = true ∧
      ((on_release Key.ctrl recording_state).2.count Output.stopCapture = 1 ∧
        (on_release Key.ctrl recording_state).2.count Output.dispatchAudio = 1 ∧
        (on_release Key.ctrl recording_state).1.recording = false ∧
        (on_release Key.ctrl recording_state).1.stream_open = false)) ∧
    (normalize_key recording_state.hotkey_combo (Key.char 'x') ∉
        recording_state.hotkey_combo ∧
      (on_release (Key.char 'x') recording_state).2.count Output.stopCapture = 0) :=
  ⟨⟨by decide, by decide,
      (release_stop_capture Key.ctrl recording_state).1 (by decide) (by decide)⟩,
    ⟨by decide, (release_stop_capture (Key.char 'x') recording_state).2 (by decide)⟩⟩

/-- C3 (counterexample): releasing escape while recording with the
ctrl+win combo shuts the listener down but fires NO `stopCapture` and
leaves the recording flag set — the claimed final StopCapture does not
happen. -/
theorem escape_release_leaves_recording :
    Output.stopCapture ∉ (on_release Key.esc recording_state).2 ∧
    (on_release Key.esc recording_state).1.recording = true ∧
    Output.shutdown ∈ (on_release Key.esc recording_state).2 := by
  decide

/-- C3 (amended): releasing escape always terminates the listening
session (shutdown in every state); a final `stopCapture` is emitted
only when escape is itself a member of the hotkey combo and the machine
is recording — and `parse_hotkey` can never produce a combo containing
escape, so in practice a recording in progress is left running. -/
theorem escape_release_terminates (s : ClientState) :
    Output.shutdown ∈ (on_release Key.esc s).2 ∧
    (on_release Key.esc s).1.is_running = false ∧
    (Output.stopCapture ∈ (on_release Key.esc s).2 ↔
      (Key.esc ∈ s.hotkey_combo ∧ s.recording = true)) := by
  have hnorm : normalize_key s.hotkey_combo Key.esc = Key.esc := by
    simp [normalize_key]
  unfold on_release stop_recording
  rw [hnorm]
  by_cases hmem : Key.esc ∈ s.hotkey_combo
  · by_cases hrec : s.recording = true <;> simp [hmem, hrec]
  · simp [hmem]

end Fnwispr
